import Mathlib

/-!
Verification of the x402-nostr-relay core against its specification.

The definitions below are shallow embeddings of the JavaScript sources:
  * `matchFilter` / `matchFilters`   — src/filters.mjs
  * `EventStore.add` / `EventStore.query` (in-memory Map-backed store)
                                     — src/store.mjs (identical logic is
                                       repeated as `_addMemory` / `_queryMemory`
                                       in the SQLite store module)
  * `addDb` / `queryDb`              — the SQLite-backed `_addDb` / `_queryDb`
                                       of the store module, with the SQL
                                       statements modelled over an
                                       insertion-ordered row list
  * `getBasePrice` / `getPrice` / `getRecipient` / `verifyPayment`
                                     — src/x402.mjs
JavaScript `Map`s are modelled as insertion-ordered lists (a JS `Map`
iterates in insertion order and `Map.set` of a fresh key appends).
Machine numbers are modelled as `Nat` / `Int`; every value in scope
(kinds, timestamps, sat amounts) stays far below any overflow boundary
and the code performs no wrapping arithmetic.
-/

/-- JS `String.prototype.startsWith`, modelled over the underlying character
list (Lean's own `String.startsWith` goes through `USize` and does not reduce
in the kernel). -/
def strStartsWith (s p : String) : Bool :=
  p.data.isPrefixOf s.data

/-- A Nostr event as handled by the relay (src/store.mjs, src/filters.mjs):
`tags` is a list of string tuples, modelled as `List (List String)`. -/
structure NostrEvent where
  id : String
  pubkey : String
  kind : Nat
  created_at : Int
  content : String := ""
  tags : List (List String) := []
  sig : String := ""
  deriving Repr, DecidableEq

/-- A NIP-01 subscription filter (src/filters.mjs).  Tag-name filters
(object keys of the form `"#" + letter`) are modelled as an association
list from the one-letter tag name to the accepted values; the code ignores
`#`-keys whose length is not 2, so only one-letter names occur. -/
structure NostrFilter where
  ids : Option (List String) := none
  authors : Option (List String) := none
  kinds : Option (List Nat) := none
  since : Option Int := none
  /-- the source's `until` field; `until` is a reserved word in Lean. -/
  untilTs : Option Int := none
  tagFilters : List (String × List String) := []
  limit : Option Int := none
  deriving Repr, DecidableEq

/-- An absent (`none`) filter field imposes no condition; a present one is
checked with `p`.  Factors the `if (filter.x ...)` guards shared by
`matchFilter` and `_queryDb`. -/
def optPass {A : Type} (o : Option A) (p : A → Bool) : Bool :=
  match o with
  | none => true
  | some x => p x

/-- Function `matchFilter` from src/filters.mjs: a filter matches an event when every
specified field matches; a present-but-empty list field is skipped by the
`length > 0` guards of the source. -/
def matchFilter (e : NostrEvent) (f : NostrFilter) : Bool :=
  optPass f.ids (fun ids => ids.isEmpty || ids.any (fun i => strStartsWith e.id i)) &&
  optPass f.authors (fun as => as.isEmpty || as.any (fun a => strStartsWith e.pubkey a)) &&
  optPass f.kinds (fun ks => ks.isEmpty || ks.contains e.kind) &&
  optPass f.since (fun s => decide (s ≤ e.created_at)) &&
  optPass f.untilTs (fun u => decide (e.created_at ≤ u)) &&
  f.tagFilters.all (fun tf =>
    tf.2.isEmpty ||
    tf.2.any (fun v =>
      ((e.tags.filter (fun t => t.get? 0 == some tf.1)).map (fun t => t.get? 1)).contains (some v)))

/-- Function `matchFilters` from src/filters.mjs: OR of `matchFilter` over the list. -/
def matchFilters (e : NostrEvent) (fs : List NostrFilter) : Bool :=
  fs.any (fun f => matchFilter e f)

/-- Kinds 0, 3 and 10000..19999 are replaceable (src/store.mjs). -/
def isReplaceableKind (k : Nat) : Bool :=
  k == 0 || k == 3 || (decide (10000 ≤ k) && decide (k < 20000))

/-- Kinds 30000..39999 are parameterized replaceable (src/store.mjs). -/
def isParamReplaceableKind (k : Nat) : Bool :=
  decide (30000 ≤ k) && decide (k < 40000)

/-- Kinds 20000..29999 are ephemeral (src/store.mjs). -/
def isEphemeralKind (k : Nat) : Bool :=
  decide (20000 ≤ k) && decide (k < 30000)

/-- The `d`-tag value of an event, defaulting to `""` when no `d` tag or no
second element is present — `(event.tags || []).find(t => t[0] === 'd')?.[1] || ''`
in src/store.mjs (the `|| ''` sends both a missing and an empty value to `""`). -/
def dTagOf (e : NostrEvent) : String :=
  match e.tags.find? (fun t => t.get? 0 == some "d") with
  | none => ""
  | some t =>
    match t.get? 1 with
    | none => ""
    | some s => s

/-- The replaceable-event loop of `EventStore.add`: walks the store in
insertion order; a same-(pubkey, kind) entry that is at least as new as the
incoming event aborts the whole add (`return false`) with the entries already
deleted staying deleted; an older one is deleted. -/
def replScan (e : NostrEvent) : List NostrEvent → Bool × List NostrEvent
  | [] => (true, [])
  | x :: xs =>
    if x.pubkey == e.pubkey && x.kind == e.kind then
      if e.created_at ≤ x.created_at then (false, x :: xs)
      else replScan e xs
    else
      let r := replScan e xs
      (r.1, x :: r.2)

/-- The parameterized-replaceable loop of `EventStore.add`: like `replScan`
but only entries whose `d`-tag value equals the incoming event's compete. -/
def paramScan (e : NostrEvent) : List NostrEvent → Bool × List NostrEvent
  | [] => (true, [])
  | x :: xs =>
    if x.pubkey == e.pubkey && x.kind == e.kind then
      if dTagOf x == dTagOf e then
        if e.created_at ≤ x.created_at then (false, x :: xs)
        else paramScan e xs
      else
        let r := paramScan e xs
        (r.1, x :: r.2)
    else
      let r := paramScan e xs
      (r.1, x :: r.2)

namespace EventStore

/-- Method `add` of `EventStore` from src/store.mjs over the insertion-ordered event list:
duplicate-id rejection, then the replaceable and parameterized-replaceable
loops, then the ephemeral accept-without-store rule, else append. -/
def add (st : List NostrEvent) (e : NostrEvent) : Bool × List NostrEvent :=
  if st.any (fun x => x.id == e.id) then (false, st)
  else
    let r1 := if isReplaceableKind e.kind then replScan e st else (true, st)
    if r1.1 = false then (false, r1.2)
    else
      let r2 := if isParamReplaceableKind e.kind then paramScan e r1.2 else (true, r1.2)
      if r2.1 = false then (false, r2.2)
      else if isEphemeralKind e.kind then (true, r2.2)
      else (true, r2.2 ++ [e])

/-- Stable insertion step for sorting by `created_at` descending: the new
element goes before the first element with a strictly smaller key, which
keeps earlier-inserted equal-key elements in front (the JS `Array.sort` used
by the source is stable, so ties stay in insertion order). -/
def insertDesc (e : NostrEvent) : List NostrEvent → List NostrEvent
  | [] => [e]
  | x :: xs =>
    if e.created_at < x.created_at then x :: insertDesc e xs
    else e :: x :: xs

/-- Stable sort by `created_at` descending, modelling
`results.sort((a, b) => b.created_at - a.created_at)`. -/
def sortDesc (l : List NostrEvent) : List NostrEvent :=
  l.foldr insertDesc []

/-- Method `query` of `EventStore` from src/store.mjs: filter, sort descending by
`created_at`, and apply `filter.limit` when it is a positive number
(`filter.limit != null && filter.limit > 0`). -/
def query (st : List NostrEvent) (f : NostrFilter) : List NostrEvent :=
  let results := st.filter (fun e => matchFilter e f)
  let sorted := sortDesc results
  match f.limit with
  | some l => if 0 < l then sorted.take l.toNat else sorted
  | none => sorted

/-- Size of the store: number of stored events. -/
def size (st : List NostrEvent) : Nat := st.length

end EventStore

/-! ## The SQLite-backed store (`_addDb` / `_queryDb` of the store module)

The `events` table is modelled as an insertion-ordered list of events (each
row round-trips the full event through its `raw` column).  `SELECT ... ORDER
BY created_at DESC` is modelled with the same stable descending sort; SQLite
does not specify the order of equal keys, the model picks insertion order.
`LIKE 'prefix%'` is modelled as a prefix test (the prefixes the relay
receives are hex id/pubkey fragments without `%` or `_` wildcards). -/

/-- The `WHERE` clause `_queryDb` builds from a filter: ids/authors as
prefix (`LIKE`) disjunctions, kinds as `IN`, `since`/`until` as bounds — a
field that is absent or an empty list contributes no condition
(`if (filter.ids?.length)`).  Tag filters are *not* part of the SQL. -/
def sqlCond (e : NostrEvent) (f : NostrFilter) : Bool :=
  optPass f.ids (fun ids => ids.isEmpty || ids.any (fun i => strStartsWith e.id i)) &&
  optPass f.authors (fun as => as.isEmpty || as.any (fun a => strStartsWith e.pubkey a)) &&
  optPass f.kinds (fun ks => ks.isEmpty || ks.contains e.kind) &&
  optPass f.since (fun s => decide (s ≤ e.created_at)) &&
  optPass f.untilTs (fun u => decide (e.created_at ≤ u))

/-- One pass of the JS post-`SELECT` tag filtering in `_queryDb`:
`events.filter(e => (e.tags || []).some(t => t[0] === tagName && values.includes(t[1])))`.
Unlike `matchFilter`, there is no `length > 0` guard, so an empty value list
filters everything out. -/
def dbTagPass (tf : String × List String) (evs : List NostrEvent) : List NostrEvent :=
  evs.filter (fun e =>
    e.tags.any (fun t =>
      t.get? 0 == some tf.1 &&
      (match t.get? 1 with
       | some v => tf.2.contains v
       | none => false)))

/-- Method `_queryDb`: SQL `WHERE`/`ORDER BY`/`LIMIT` first (`LIMIT` is
`min(filter.limit, 5000)` for a positive limit, else `5000`), then the JS
tag-filter passes over the already-truncated rows. -/
def queryDb (st : List NostrEvent) (f : NostrFilter) : List NostrEvent :=
  let pre := EventStore.sortDesc (st.filter (fun e => sqlCond e f))
  let lim : Nat :=
    match f.limit with
    | some l => if 0 < l then min l.toNat 5000 else 5000
    | none => 5000
  f.tagFilters.foldl (fun evs tf => dbTagPass tf evs) (pre.take lim)

/-- The parameterized-replaceable loop of `_addDb`: the matching rows are
read with `.all(...)` first (a snapshot, in table order), then each row with
the same `d`-tag value is compared; `return false` aborts with the deletions
already executed kept. -/
def paramScanDb (e : NostrEvent) : List NostrEvent → List NostrEvent → Bool × List NostrEvent
  | [], table => (true, table)
  | r :: rs, table =>
    if dTagOf r == dTagOf e then
      if e.created_at ≤ r.created_at then (false, table)
      else paramScanDb e rs (table.filter (fun x => x.id != r.id))
    else paramScanDb e rs table

/-- Method `_addDb` from the SQLite store: duplicate check by primary key, the
replaceable rule via a single `SELECT ... .get` (the first matching row in
table order), the parameterized-replaceable loop over an `.all` snapshot,
the ephemeral rule, then `INSERT`. -/
def addDb (st : List NostrEvent) (e : NostrEvent) : Bool × List NostrEvent :=
  if st.any (fun x => x.id == e.id) then (false, st)
  else
    let r1 : Bool × List NostrEvent :=
      if isReplaceableKind e.kind then
        match st.find? (fun x => x.pubkey == e.pubkey && x.kind == e.kind) with
        | none => (true, st)
        | some old =>
          if e.created_at ≤ old.created_at then (false, st)
          else (true, st.filter (fun x => x.id != old.id))
      else (true, st)
    if r1.1 = false then (false, r1.2)
    else
      let r2 : Bool × List NostrEvent :=
        if isParamReplaceableKind e.kind then
          paramScanDb e (r1.2.filter (fun x => x.pubkey == e.pubkey && x.kind == e.kind)) r1.2
        else (true, r1.2)
      if r2.1 = false then (false, r2.2)
      else if isEphemeralKind e.kind then (true, r2.2)
      else (true, r2.2 ++ [e])

/-! ## The x402 payment gate (src/x402.mjs) -/

/-- The relay's configured receiving address (the `PAY_TO` default). -/
def PAY_TO : String := "SP3PME5Q8G3VJ7GAFBMNCRXJ28HFTBX74XZC70WZ7"

/-- The fixed recipient-forwarding surcharge (`RECIPIENT_AMOUNT`, sats). -/
def RECIPIENT_AMOUNT : Nat := 100

/-- JS whitespace for `String.prototype.trim` (the forms that can occur in a
transaction-id header). -/
def isJsSpace (c : Char) : Bool :=
  c == ' ' || c == '\t' || c == '\n' || c == '\r' ||
  c == '\x0b' || c == '\x0c'

/-- ASCII lower-casing of one character, the effect of
`String.prototype.toLowerCase` on the ASCII transaction ids in scope. -/
def charLower (c : Char) : Char :=
  if 65 ≤ c.toNat ∧ c.toNat ≤ 90 then Char.ofNat (c.toNat + 32) else c

/-- Function `normalizeTxId` from src/x402.mjs: `txId.trim().toLowerCase()` (a
non-string input is sent to `""`; the model takes strings). -/
def normalizeTxId (s : String) : String :=
  String.mk (((s.data.dropWhile isJsSpace).reverse.dropWhile isJsSpace).reverse.map charLower)

/-- Decimal digit-string value, or `none` when a character is not a digit or
the string is empty. -/
def decDigits? (l : List Char) : Option Nat :=
  if l.isEmpty then none
  else if l.all (fun c => 48 ≤ c.toNat ∧ c.toNat ≤ 57) then
    some (l.foldl (fun n c => n * 10 + (c.toNat - 48)) 0)
  else none

/-- JS `BigInt(string)` restricted to the optional-sign decimal forms the
ledger API returns: surrounding whitespace is trimmed, an empty or
whitespace-only string is `0n`, a non-numeric string throws (`none`).
(Hex/octal/binary literal forms are elided.) -/
def strToBigInt (s : String) : Option Int :=
  let t := (s.data.dropWhile isJsSpace).reverse.dropWhile isJsSpace |>.reverse
  if t.isEmpty then some 0
  else
    match t with
    | '-' :: rest => (decDigits? rest).map (fun n => -(n : Int))
    | '+' :: rest => (decDigits? rest).map (fun n => (n : Int))
    | _ => (decDigits? t).map (fun n => (n : Int))

/-- Function `parseAmount` from src/x402.mjs: `BigInt(value)` guarded by `>= 0n`; an
absent field (`undefined`) throws inside the `try`, giving `null`. -/
def parseAmount (v : Option String) : Option Int :=
  match v with
  | none => none
  | some s =>
    match strToBigInt s with
    | none => none
    | some n => if 0 ≤ n then some n else none

/-- The `token_transfer` part of a ledger transaction record. -/
structure TokenTransfer where
  recipient_address : String
  amount : Option String := none
  deriving Repr, DecidableEq

/-- The `asset` part of an emitted transaction event. -/
structure TxAsset where
  asset_event_type : String
  recipient : String
  amount : Option String := none
  deriving Repr, DecidableEq

/-- One emitted event of a `contract_call` transaction. -/
structure TxEvent where
  event_type : String
  asset : Option TxAsset := none
  deriving Repr, DecidableEq

/-- A transaction record as returned by the ledger API
(`GET /extended/v1/tx/:txid`), with the fields `verifyPayment` reads. -/
structure StacksTx where
  tx_status : String
  tx_type : String
  token_transfer : Option TokenTransfer := none
  events : List TxEvent := []
  deriving Repr, DecidableEq

/-- Outcome of `verifyPayment`: `{valid: true}` or `{valid: false, error}`. -/
inductive VerifyResult where
  | ok : VerifyResult
  | err (msg : String) : VerifyResult
  deriving Repr, DecidableEq

/-- The ledger lookup: `none` models a non-200 response, an unreachable API
or a malformed payload (every such case lands in a rejection, never a
crash; the model folds the source's "Transaction not found: status" and
"Verification failed: message" diagnostics into one not-found rejection). -/
def Ledger : Type := String → Option StacksTx

/-- The transaction-shape dispatch of `verifyPayment` (the
`token_transfer` / `contract_call` / unsupported branches of src/x402.mjs,
reached after the status check): the paid amount, or the rejection reason. -/
def classifyPayment (tx : StacksTx) : Except String Int :=
  if tx.tx_type = "token_transfer" then
    match tx.token_transfer with
    | none => .error "Payment not sent to relay address"
    | some tt =>
      if tt.recipient_address ≠ PAY_TO then .error "Payment not sent to relay address"
      else
        match parseAmount tt.amount with
        | none => .error "Invalid transfer amount"
        | some a => .ok a
  else if tx.tx_type = "contract_call" then
    match tx.events.find? (fun ev =>
        (ev.event_type == "fungible_token_transfer" ||
         ev.event_type == "fungible_token_asset") &&
        (match ev.asset with
         | some a => a.asset_event_type == "transfer" && a.recipient == PAY_TO
         | none => false)) with
    | none => .error "No sBTC transfer to relay found in tx"
    | some ev =>
      match parseAmount (ev.asset.bind TxAsset.amount) with
      | none => .error "Invalid transfer amount"
      | some a => .ok a
  else .error ("Unsupported transaction type: " ++ tx.tx_type)

/-- Function `verifyPayment` from src/x402.mjs as a pure function of the ledger, the
current `usedTxIds` set (a list), the raw token and the required sats.
Returns the outcome and the updated `usedTxIds` set — updated only on full
validation (`usedTxIds.add` is the last step before `{valid: true}`). -/
def verifyPayment (ledger : Ledger) (used : List String)
    (txId : String) (requiredSats : Nat) : VerifyResult × List String :=
  let n := normalizeTxId txId
  if n = "" then (.err "Missing transaction ID", used)
  else if used.contains n then (.err "Transaction already used", used)
  else
    match ledger n with
    | none => (.err "Transaction not found", used)
    | some tx =>
      if tx.tx_status ≠ "success" then (.err ("Transaction status: " ++ tx.tx_status), used)
      else
        let minimumAmount : Int := (requiredSats : Int)
        match classifyPayment tx with
        | .error msg => (.err msg, used)
        | .ok paidAmount =>
          if paidAmount < minimumAmount then
            (.err ("Insufficient payment: " ++ toString paidAmount ++ " < " ++
              toString minimumAmount), used)
          else (.ok, n :: used)

/-- Function `getBasePrice` from src/x402.mjs: the fixed kind-keyed table with its
default of 10. -/
def getBasePrice (k : Nat) : Nat :=
  if k = 0 then 50
  else if k = 1 then 10
  else if k = 4 then 5
  else if k = 30023 then 25
  else 10

/-- Function `getRecipient` from src/x402.mjs: the second element of the first `p`
tag whose second element is truthy (present and non-empty). -/
def getRecipient (e : NostrEvent) : Option String :=
  match e.tags.find? (fun t =>
      t.get? 0 == some "p" &&
      (match t.get? 1 with
       | some v => v ≠ ""
       | none => false)) with
  | none => none
  | some t => t.get? 1

/-- Function `getPrice` applied to an event object: base price for the kind plus the
recipient surcharge when the event carries a `p` tag. -/
def getPrice (e : NostrEvent) : Nat :=
  match getRecipient e with
  | some _ => getBasePrice e.kind + RECIPIENT_AMOUNT
  | none => getBasePrice e.kind

/-- Function `getPrice` applied to a bare kind number, as the `POST /api/events`
handler in src/index.mjs calls it (`getPrice(event.kind)`): the
`typeof event === 'number'` branch sets `recipient` to `null`, so the
surcharge is never added. -/
def getPriceOfKind (k : Nat) : Nat :=
  getBasePrice k

/-- The payment-then-admit composition of the `POST /api/events` handler in
src/index.mjs: the required price passed to `verifyPayment` is
`getPrice(event.kind)`, and on success the event is handed to
`relay.injectEvent`, i.e. `store.add`. -/
def postApiEvents (ledger : Ledger) (used : List String) (st : List NostrEvent)
    (e : NostrEvent) (txId : String) :
    VerifyResult × List String × Bool × List NostrEvent :=
  let v := verifyPayment ledger used txId (getPriceOfKind e.kind)
  match v.1 with
  | .err m => (.err m, v.2, false, st)
  | .ok =>
    let a := EventStore.add st e
    (.ok, v.2, a.1, a.2)

/-- The `usedTxIds` set at process start: `const usedTxIds = new Set()` in
src/x402.mjs is re-created empty on every start, so this is also the consumed
set right after a restart, whatever was consumed before. -/
def usedTxIdsAtProcessStart : List String := []

/-! ## Concrete scenario data used by the closed theorems below -/

/-- A successful direct sBTC transfer of 1000 sats to the relay address. -/
def sampleTransfer : TokenTransfer :=
  { recipient_address := PAY_TO, amount := some "1000" }

/-- The ledger record of `sampleTransfer`. -/
def sampleTx : StacksTx :=
  { tx_status := "success", tx_type := "token_transfer", token_transfer := some sampleTransfer }

/-- A ledger holding exactly the transaction `"0xabc"` (= `sampleTx`). -/
def sampleLedger : Ledger := fun t => if t = "0xabc" then some sampleTx else none

/-- A kind-1 text note carrying a `p` tag (a recipient). -/
def pTaggedNote : NostrEvent :=
  { id := "evt1", pubkey := "alice", kind := 1, created_at := 1000,
    tags := [["p", "bob"]], sig := "sig" }

/-- A successful direct transfer of only 10 sats to the relay address. -/
def underpayTransfer : TokenTransfer :=
  { recipient_address := PAY_TO, amount := some "10" }

/-- The ledger record of `underpayTransfer`. -/
def underpayTx : StacksTx :=
  { tx_status := "success", tx_type := "token_transfer", token_transfer := some underpayTransfer }

/-- A ledger holding exactly the 10-sat transaction `"0xaaa"`. -/
def underpayLedger : Ledger := fun t => if t = "0xaaa" then some underpayTx else none

/-- A kind-1 event with `created_at = 200` and no tags. -/
def evNewer : NostrEvent :=
  { id := "e1", pubkey := "auth", kind := 1, created_at := 200, sig := "sig" }

/-- A kind-1 event with `created_at = 100` carrying the tag `["p", "x"]`. -/
def evTagged : NostrEvent :=
  { id := "e2", pubkey := "auth", kind := 1, created_at := 100,
    tags := [["p", "x"]], sig := "sig" }

/-- The filter `{"#p": ["x"], limit: 1}`. -/
def tagLimitFilter : NostrFilter := { tagFilters := [("p", ["x"])], limit := some 1 }

/-- The empty filter `{}` (no fields set). -/
def emptyFilter : NostrFilter := {}

/-- The filter semantics exactly as the specification words them: the
conjunction of one predicate per present field, a field counting as present
whenever it is supplied (`some`) — even as an empty list. -/
def matchFilterClaimed (e : NostrEvent) (f : NostrFilter) : Prop :=
  (∀ l, f.ids = some l → ∃ i ∈ l, strStartsWith e.id i = true) ∧
  (∀ l, f.authors = some l → ∃ a ∈ l, strStartsWith e.pubkey a = true) ∧
  (∀ l, f.kinds = some l → e.kind ∈ l) ∧
  (∀ s, f.since = some s → s ≤ e.created_at) ∧
  (∀ u, f.untilTs = some u → e.created_at ≤ u) ∧
  (∀ tf ∈ f.tagFilters, ∃ v ∈ tf.2, ∃ t ∈ e.tags,
    t.get? 0 = some tf.1 ∧ t.get? 1 = some v)

/-- Predicate `matchFilterClaimed` with the one correction the code forces: a present
but *empty* list field (ids, authors, kinds, or a tag filter's value list)
constrains nothing, because of the `length > 0` guards in src/filters.mjs. -/
def matchFilterAmended (e : NostrEvent) (f : NostrFilter) : Prop :=
  (∀ l, f.ids = some l → l ≠ [] → ∃ i ∈ l, strStartsWith e.id i = true) ∧
  (∀ l, f.authors = some l → l ≠ [] → ∃ a ∈ l, strStartsWith e.pubkey a = true) ∧
  (∀ l, f.kinds = some l → l ≠ [] → e.kind ∈ l) ∧
  (∀ s, f.since = some s → s ≤ e.created_at) ∧
  (∀ u, f.untilTs = some u → e.created_at ≤ u) ∧
  (∀ tf ∈ f.tagFilters, tf.2 ≠ [] → ∃ v ∈ tf.2, ∃ t ∈ e.tags,
    t.get? 0 = some tf.1 ∧ t.get? 1 = some v)

/-- A plain kind-1 event used as the counterexample event for the filter
semantics. -/
def plainNote : NostrEvent :=
  { id := "abc", pubkey := "pk", kind := 1, created_at := 5, sig := "sig" }

/-- The filter `{ids: []}`: the `ids` field is present but empty. -/
def emptyIdsFilter : NostrFilter := { ids := some [] }

/-- The descending `created_at` order the query contract asks for (a later
element never has a greater `created_at` than an earlier one). -/
def createdGe (a b : NostrEvent) : Prop :=
  b.created_at ≤ a.created_at

/-- The i-th of a family of regular (kind-1) events with pairwise distinct
ids and `created_at = i`, used to build large reachable stores. -/
def regularEventNum (i : Nat) : NostrEvent :=
  { id := String.mk (List.replicate i 'a'), pubkey := "bulk", kind := 1,
    created_at := (i : Int), sig := "sig" }

/-- A list of `n` distinct regular events. -/
def bulkEvents (n : Nat) : List NostrEvent :=
  (List.range n).map regularEventNum

/-- Admit a whole list of events in order, keeping the final store (the
result booleans are dropped). -/
def addAll (st : List NostrEvent) (l : List NostrEvent) : List NostrEvent :=
  l.foldl (fun s e => (EventStore.add s e).2) st
/-- A kind-30000 event of author `"aaa"` with `d` value `"x"`. -/
def paramEvX : NostrEvent :=
  { id := "dx", pubkey := "aaa", kind := 30000, created_at := 100, tags := [["d", "x"]] }

/-- A kind-30000 event of author `"aaa"` with `d` value `"y"`. -/
def paramEvY : NostrEvent :=
  { id := "dy", pubkey := "aaa", kind := 30000, created_at := 100, tags := [["d", "y"]] }

/-- A stale kind-30000 event with the same `d` value as `paramEvX`. -/
def paramEvStale : NostrEvent :=
  { id := "dx2", pubkey := "aaa", kind := 30000, created_at := 50, tags := [["d", "x"]] }

/-- A kind-25000 (ephemeral) event with an id no stored event carries. -/
def ephFresh : NostrEvent :=
  { id := "eph1", pubkey := "pk", kind := 25000, created_at := 7, sig := "sig" }

/-- A kind-25000 (ephemeral) event sharing its id with `plainNote`. -/
def ephClash : NostrEvent :=
  { id := "abc", pubkey := "pk", kind := 25000, created_at := 7, sig := "sig" }

/-- The filter `{limit: 1}`. -/
def limit1Filter : NostrFilter := { limit := some 1 }

/-- The filter `{limit: 2}`. -/
def limit2Filter : NostrFilter := { limit := some 2 }


/-! ## Kind-class facts shared by the store theorems -/

theorem replaceable_not_param {k : Nat} (h : isReplaceableKind k = true) :
    isParamReplaceableKind k = false := by
  refine Bool.eq_false_iff.mpr (fun hp => ?_)
  simp only [isReplaceableKind, isParamReplaceableKind, Bool.or_eq_true, Bool.and_eq_true,
    beq_iff_eq, decide_eq_true_eq] at h hp
  omega

theorem replaceable_not_ephemeral {k : Nat} (h : isReplaceableKind k = true) :
    isEphemeralKind k = false := by
  refine Bool.eq_false_iff.mpr (fun hp => ?_)
  simp only [isReplaceableKind, isEphemeralKind, Bool.or_eq_true, Bool.and_eq_true,
    beq_iff_eq, decide_eq_true_eq] at h hp
  omega

theorem param_not_replaceable {k : Nat} (h : isParamReplaceableKind k = true) :
    isReplaceableKind k = false := by
  refine Bool.eq_false_iff.mpr (fun hp => ?_)
  simp only [isReplaceableKind, isParamReplaceableKind, Bool.or_eq_true, Bool.and_eq_true,
    beq_iff_eq, decide_eq_true_eq] at h hp
  omega

theorem param_not_ephemeral {k : Nat} (h : isParamReplaceableKind k = true) :
    isEphemeralKind k = false := by
  refine Bool.eq_false_iff.mpr (fun hp => ?_)
  simp only [isParamReplaceableKind, isEphemeralKind, Bool.and_eq_true,
    decide_eq_true_eq] at h hp
  omega

theorem ephemeral_not_replaceable {k : Nat} (h : isEphemeralKind k = true) :
    isReplaceableKind k = false := by
  refine Bool.eq_false_iff.mpr (fun hp => ?_)
  simp only [isReplaceableKind, isEphemeralKind, Bool.or_eq_true, Bool.and_eq_true,
    beq_iff_eq, decide_eq_true_eq] at h hp
  omega

theorem ephemeral_not_param {k : Nat} (h : isEphemeralKind k = true) :
    isParamReplaceableKind k = false := by
  refine Bool.eq_false_iff.mpr (fun hp => ?_)
  simp only [isParamReplaceableKind, isEphemeralKind, Bool.and_eq_true,
    decide_eq_true_eq] at h hp
  omega

/-- C1: the spec claims a payment-proof identifier authorizes at most one
admitted write ever, *including across process restarts with the same durable
store*.  The code keeps the consumed set in the in-memory `usedTxIds`
`Set` of src/x402.mjs, re-created empty at every process start
(`usedTxIdsAtProcessStart = []`); the durable `used_tx_ids` table and
`markTxUsed`/`isUsedTx` of the store are never consulted by `verifyPayment`.
Within one process the second verification of `"0xabc"` is rejected, but a
verification in a restarted process — whose consumed set is
`usedTxIdsAtProcessStart` again — succeeds a second time. -/
theorem c1_replay_possible_after_restart :
    (verifyPayment sampleLedger usedTxIdsAtProcessStart "0xabc" 10).1 = .ok ∧
    (verifyPayment sampleLedger
        (verifyPayment sampleLedger usedTxIdsAtProcessStart "0xabc" 10).2
        "0xabc" 10).1 = .err "Transaction already used" ∧
    usedTxIdsAtProcessStart = [] ∧
    (verifyPayment sampleLedger [] "0xabc" 10).1 = .ok := by
  decide

/-- C2: the spec claims a `p`-tagged kind-1 event is admitted only for an
amount of at least 110 (base 10 plus surcharge 100).  `getPrice` on the event
does give 110, but the `POST /api/events` handler of src/index.mjs calls
`getPrice(event.kind)`, whose number branch never adds the surcharge, so the
required amount passed to `verifyPayment` is 10: a successful 10-sat
transfer verifies and the `p`-tagged event is admitted and stored. -/
theorem c2_surcharge_not_enforced :
    getPrice pTaggedNote = 110 ∧
    getPriceOfKind pTaggedNote.kind = 10 ∧
    (postApiEvents underpayLedger [] [] pTaggedNote "0xaaa").1 = .ok ∧
    (postApiEvents underpayLedger [] [] pTaggedNote "0xaaa").2.2.1 = true ∧
    (postApiEvents underpayLedger [] [] pTaggedNote "0xaaa").2.2.2 = [pTaggedNote] := by
  decide

/-- C6: the spec claims the SQLite-backed store and the in-memory fallback
are observably identical on every admit/query sequence.  Admitting `evNewer`
then `evTagged` succeeds identically on both, but the query
`{"#p": ["x"], limit: 1}` answers differently: `_queryDb` applies the SQL
`LIMIT` *before* the JS tag-filter pass, so the single newest row (`evNewer`,
no `p` tag) is fetched and then filtered away, giving `[]`, while the
in-memory path filters first and returns `[evTagged]`. -/
theorem c6_backends_observably_differ :
    (EventStore.add [] evNewer).1 = true ∧
    (addDb [] evNewer).1 = true ∧
    (EventStore.add (EventStore.add [] evNewer).2 evTagged).1 = true ∧
    (addDb (addDb [] evNewer).2 evTagged).1 = true ∧
    (EventStore.add (EventStore.add [] evNewer).2 evTagged).2 =
      (addDb (addDb [] evNewer).2 evTagged).2 ∧
    EventStore.query (EventStore.add (EventStore.add [] evNewer).2 evTagged).2
      tagLimitFilter = [evTagged] ∧
    queryDb (addDb (addDb [] evNewer).2 evTagged).2 tagLimitFilter = [] := by
  decide

/-- Case split shared by the payment-gate theorems: a `verifyPayment` call
either fully validates — returning `ok` and consing the normalized id onto
the consumed set — or rejects and returns the consumed set unchanged. -/
theorem verifyPayment_cases (L : Ledger) (u : List String) (t : String) (r : Nat) :
    ((verifyPayment L u t r).1 = .ok ∧
      (verifyPayment L u t r).2 = normalizeTxId t :: u ∧
      normalizeTxId t ≠ "" ∧ (normalizeTxId t ∈ u → False)) ∨
    ((verifyPayment L u t r).1 ≠ .ok ∧ (verifyPayment L u t r).2 = u) := by
  unfold verifyPayment
  by_cases h1 : normalizeTxId t = ""
  · right; simp [h1]
  · rw [if_neg h1]
    by_cases h2 : normalizeTxId t ∈ u
    · right
      rw [if_pos (by simpa using h2)]
      simp
    · rw [if_neg (by simpa using h2)]
      cases hL : L (normalizeTxId t) with
      | none => right; simp
      | some tx =>
        dsimp only
        by_cases hs : tx.tx_status = "success"
        · rw [if_neg (show ¬ tx.tx_status ≠ "success" by simp [hs])]
          cases hp : classifyPayment tx with
          | error msg => right; simp [hp]
          | ok amt =>
            by_cases hlt : amt < (r : Int)
            · right; simp [hp, hlt]
            · left; simp [hp, hlt, h1]; exact h2
        · rw [if_pos hs]; right; simp

/-- C3: the proof-token lifecycle of `verifyPayment`.  The call's behaviour
depends on the token only through its normalization (trim and lower-case);
an empty normalized token and an already-consumed one are rejected
immediately; a rejection of any kind leaves the consumed set unchanged (so
the identifier stays usable for a retry); and after a successful
verification, a later call with the same token — against any ledger and any
required amount — is rejected as already used. -/
theorem c3_proof_token_lifecycle (L Lr : Ledger) (u : List String) (t tr : String) (r rr : Nat) :
    (normalizeTxId t = normalizeTxId tr → verifyPayment L u t r = verifyPayment L u tr r) ∧
    (normalizeTxId t = "" → verifyPayment L u t r = (.err "Missing transaction ID", u)) ∧
    (normalizeTxId t ≠ "" → normalizeTxId t ∈ u →
      verifyPayment L u t r = (.err "Transaction already used", u)) ∧
    ((verifyPayment L u t r).1 ≠ .ok → (verifyPayment L u t r).2 = u) ∧
    ((verifyPayment L u t r).1 = .ok →
      (verifyPayment Lr (verifyPayment L u t r).2 t rr).1 = .err "Transaction already used") := by
  refine ⟨?_, ?_, ?_, ?_, ?_⟩
  · intro h
    unfold verifyPayment
    rw [h]
  · intro h
    unfold verifyPayment
    simp [h]
  · intro h1 h2
    unfold verifyPayment
    rw [if_neg h1, if_pos (by simpa using h2)]
  · intro h
    rcases verifyPayment_cases L u t r with ⟨hok, -⟩ | ⟨-, hu⟩
    · exact absurd hok h
    · exact hu
  · intro h
    rcases verifyPayment_cases L u t r with ⟨-, hsnd, hne, -⟩ | ⟨hne, -⟩
    · rw [hsnd]
      unfold verifyPayment
      rw [if_neg hne, if_pos (by simp)]
    · exact absurd h hne

/-- Applies `c3_proof_token_lifecycle` at concrete inputs: `" 0xABC "`
normalizes like `"0xabc"`, a blank token is rejected as missing, a consumed
token is rejected as already used, a failed lookup leaves the set unchanged,
and a second call after a success is rejected. -/
theorem c3_witness :
    verifyPayment sampleLedger [] " 0xABC " 10 = verifyPayment sampleLedger [] "0xabc" 10 ∧
    verifyPayment sampleLedger [] "   " 10 = (.err "Missing transaction ID", []) ∧
    verifyPayment sampleLedger ["0xabc"] "0xabc" 10 = (.err "Transaction already used", ["0xabc"]) ∧
    (verifyPayment sampleLedger [] "0xbad" 10).2 = [] ∧
    (verifyPayment sampleLedger (verifyPayment sampleLedger [] "0xabc" 10).2 "0xabc" 99).1 =
      .err "Transaction already used" :=
  ⟨(c3_proof_token_lifecycle sampleLedger sampleLedger [] " 0xABC " "0xabc" 10 10).1 (by decide),
   (c3_proof_token_lifecycle sampleLedger sampleLedger [] "   " "" 10 10).2.1 (by decide),
   (c3_proof_token_lifecycle sampleLedger sampleLedger ["0xabc"] "0xabc" "" 10 10).2.2.1
     (by decide) (by decide),
   (c3_proof_token_lifecycle sampleLedger sampleLedger [] "0xbad" "" 10 10).2.2.2.1 (by decide),
   (c3_proof_token_lifecycle sampleLedger sampleLedger [] "0xabc" "" 10 99).2.2.2.2 (by decide)⟩

/-- Admitting any non-ephemeral event into the empty store stores it. -/
theorem add_nil (e : NostrEvent) (he : isEphemeralKind e.kind = false) :
    EventStore.add [] e = (true, [e]) := by
  simp [EventStore.add, replScan, paramScan, he]

/-- C4: replaceable convergence.  For two replaceable events of the same
author and kind with distinct ids and `created_at` values, admitting both in
either order leaves exactly the newer one stored (size 1 for that key), and
an admission whose `created_at` is at most the stored event's returns
`false` and leaves the store unchanged. -/
theorem c4_replaceable_newest_wins (a b c : NostrEvent)
    (hk : isReplaceableKind a.kind = true)
    (hkind : b.kind = a.kind) (hpub : b.pubkey = a.pubkey)
    (hid : a.id ≠ b.id) (hcb : a.created_at < b.created_at) :
    EventStore.add (EventStore.add [] a).2 b = (true, [b]) ∧
    EventStore.add (EventStore.add [] b).2 a = (false, [b]) ∧
    (c.pubkey = b.pubkey → c.kind = b.kind → c.id ≠ b.id →
      c.created_at ≤ b.created_at → EventStore.add [b] c = (false, [b])) := by
  have hbe : isEphemeralKind b.kind = false := by
    rw [hkind]; exact replaceable_not_ephemeral hk
  have hae : isEphemeralKind a.kind = false := replaceable_not_ephemeral hk
  have hknd : isReplaceableKind b.kind = true := by rw [hkind]; exact hk
  refine ⟨?_, ?_, ?_⟩
  · rw [add_nil a hae]
    simp [EventStore.add, replScan, paramScan, hk, hknd, hkind, hpub, hid,
      replaceable_not_param hk, replaceable_not_ephemeral hk, hbe,
      not_le.mpr hcb, Ne.symm hid]
  · rw [add_nil b hbe]
    simp [EventStore.add, replScan, paramScan, hk, hkind, hpub, hid, le_of_lt hcb,
      replaceable_not_param hk, hae]
  · intro hcp hck hcid hcle
    have hkc : isReplaceableKind c.kind = true := by rw [hck, hkind]; exact hk
    simp [EventStore.add, replScan, paramScan, hk, hkc, hck, hkind, hcp, hpub,
      Ne.symm hcid, hcle]

/-- Applies `c4_replaceable_newest_wins` to two concrete kind-0 events with
`created_at` 100 and 200 and a stale third event. -/
theorem c4_witness :
    EventStore.add
      (EventStore.add [] { id := "old", pubkey := "aaa", kind := 0, created_at := 100 }).2
      { id := "new", pubkey := "aaa", kind := 0, created_at := 200 } =
      (true, [{ id := "new", pubkey := "aaa", kind := 0, created_at := 200 }]) ∧
    EventStore.add
      (EventStore.add [] { id := "new", pubkey := "aaa", kind := 0, created_at := 200 }).2
      { id := "old", pubkey := "aaa", kind := 0, created_at := 100 } =
      (false, [{ id := "new", pubkey := "aaa", kind := 0, created_at := 200 }]) ∧
    EventStore.add [{ id := "new", pubkey := "aaa", kind := 0, created_at := 200 }]
      { id := "stale", pubkey := "aaa", kind := 0, created_at := 200 } =
      (false, [{ id := "new", pubkey := "aaa", kind := 0, created_at := 200 }]) := by
  have h := c4_replaceable_newest_wins
    { id := "old", pubkey := "aaa", kind := 0, created_at := 100 }
    { id := "new", pubkey := "aaa", kind := 0, created_at := 200 }
    { id := "stale", pubkey := "aaa", kind := 0, created_at := 200 }
    (by decide) (by decide) (by decide) (by decide) (by decide)
  exact ⟨h.1, h.2.1, h.2.2 (by decide) (by decide) (by decide) (by decide)⟩

/-- C8: parameterized-replaceable isolation.  For two kind-30000-range
events of the same author and kind with distinct ids: different `d`-tag
values coexist (both orders store both), equal `d`-tag values follow the
newest-wins rule, and an admission whose `created_at` is at most the stored
same-key event's returns `false` and leaves the store unchanged. -/
theorem c8_param_replaceable_isolation (a b c : NostrEvent)
    (hk : isParamReplaceableKind a.kind = true)
    (hkind : b.kind = a.kind) (hpub : b.pubkey = a.pubkey) (hid : a.id ≠ b.id) :
    (dTagOf a ≠ dTagOf b →
      EventStore.add (EventStore.add [] a).2 b = (true, [a, b]) ∧
      EventStore.add (EventStore.add [] b).2 a = (true, [b, a])) ∧
    (dTagOf a = dTagOf b → a.created_at < b.created_at →
      EventStore.add (EventStore.add [] a).2 b = (true, [b]) ∧
      EventStore.add (EventStore.add [] b).2 a = (false, [b])) ∧
    (c.pubkey = b.pubkey → c.kind = b.kind → c.id ≠ b.id → dTagOf c = dTagOf b →
      c.created_at ≤ b.created_at → EventStore.add [b] c = (false, [b])) := by
  have hae : isEphemeralKind a.kind = false := param_not_ephemeral hk
  have hbe : isEphemeralKind b.kind = false := by rw [hkind]; exact hae
  have hbk : isParamReplaceableKind b.kind = true := by rw [hkind]; exact hk
  refine ⟨?_, ?_, ?_⟩
  · intro hd
    constructor
    · rw [add_nil a hae]
      simp [EventStore.add, replScan, paramScan, hk, hbk, hkind, hpub, hid,
        param_not_replaceable hk, hae, hbe, Ne.symm hid, hd, Ne.symm hd]
    · rw [add_nil b hbe]
      simp [EventStore.add, replScan, paramScan, hk, hbk, hkind, hpub, hid,
        param_not_replaceable hk, hae, hbe, Ne.symm hid, hd, Ne.symm hd]
  · intro hd hcb
    constructor
    · rw [add_nil a hae]
      simp [EventStore.add, replScan, paramScan, hk, hbk, hkind, hpub, hid,
        param_not_replaceable hk, hae, hbe, Ne.symm hid, hd, not_le.mpr hcb]
    · rw [add_nil b hbe]
      simp [EventStore.add, replScan, paramScan, hk, hbk, hkind, hpub, hid,
        param_not_replaceable hk, hae, Ne.symm hid, hd, le_of_lt hcb]
  · intro hcp hck hcid hcd hcle
    have hkc : isParamReplaceableKind c.kind = true := by rw [hck, hkind]; exact hk
    simp [EventStore.add, replScan, paramScan, hk, hkc, hck, hkind, hcp, hpub,
      param_not_replaceable hk, Ne.symm hcid, hcd, hcle]

/-- Applies `c8_param_replaceable_isolation` to concrete kind-30000 events
with `d` values `"x"` and `"y"`, and to a stale same-`d` event. -/
theorem c8_witness :
    EventStore.add (EventStore.add [] paramEvX).2 paramEvY = (true, [paramEvX, paramEvY]) ∧
    EventStore.add [paramEvX] paramEvStale = (false, [paramEvX]) := by
  refine ⟨?_, ?_⟩
  · exact (c8_param_replaceable_isolation paramEvX paramEvY paramEvY
      (by decide) (by decide) (by decide) (by decide)).1 (by decide) |>.1
  · exact (c8_param_replaceable_isolation paramEvY paramEvX paramEvStale
      (by decide) (by decide) (by decide) (by decide)).2.2
      (by decide) (by decide) (by decide) (by decide) (by decide)

/-- Membership in an insertion step of the descending sort. -/
theorem mem_insertDesc {x e : NostrEvent} {l : List NostrEvent} :
    x ∈ EventStore.insertDesc e l ↔ x = e ∨ x ∈ l := by
  induction l with
  | nil => simp [EventStore.insertDesc]
  | cons y ys ih =>
    rw [EventStore.insertDesc]
    split
    · simp only [List.mem_cons, ih]
      tauto
    · simp only [List.mem_cons]

/-- The descending sort neither loses nor invents elements. -/
theorem mem_sortDesc {x : NostrEvent} {l : List NostrEvent} :
    x ∈ EventStore.sortDesc l ↔ x ∈ l := by
  induction l with
  | nil => simp [EventStore.sortDesc]
  | cons y ys ih =>
    show x ∈ EventStore.insertDesc y (EventStore.sortDesc ys) ↔ _
    rw [mem_insertDesc, ih]
    simp

/-- Everything a query returns is in the store. -/
theorem query_subset {x : NostrEvent} {st : List NostrEvent} {f : NostrFilter}
    (h : x ∈ EventStore.query st f) : x ∈ st := by
  unfold EventStore.query at h
  have hx : x ∈ EventStore.sortDesc (st.filter fun e => matchFilter e f) := by
    rcases hl : f.limit with - | l
    · rw [hl] at h
      exact h
    · rw [hl] at h
      dsimp only at h
      by_cases hp : 0 < l
      · rw [if_pos hp] at h
        exact List.mem_of_mem_take h
      · rw [if_neg hp] at h
        exact h
  rw [mem_sortDesc] at hx
  exact (List.mem_filter.mp hx).1

/-- C9 (amended): admitting an ephemeral event never changes the store (in
particular the size is unchanged), returns `true` whenever no stored event
already carries its id, and the event itself is never returned by any query
(it is never in the store). -/
theorem c9_ephemeral_amended (st : List NostrEvent) (e : NostrEvent) (f : NostrFilter)
    (hk : isEphemeralKind e.kind = true) :
    (EventStore.add st e).2 = st ∧
    (st.any (fun x => x.id == e.id) = false → (EventStore.add st e).1 = true) ∧
    (e ∉ st → e ∉ EventStore.query (EventStore.add st e).2 f) := by
  have hr : isReplaceableKind e.kind = false := ephemeral_not_replaceable hk
  have hp : isParamReplaceableKind e.kind = false := ephemeral_not_param hk
  have hsnd : (EventStore.add st e).2 = st := by
    by_cases hd : st.any (fun x => x.id == e.id) = true
    · simp [EventStore.add, hd]
    · simp [EventStore.add, hd, hr, hp, hk]
  refine ⟨hsnd, ?_, ?_⟩
  · intro hd
    simp [EventStore.add, hd, hr, hp, hk]
  · intro hmem hq
    rw [hsnd] at hq
    exact hmem (query_subset hq)

/-- C9, counterexample to the claim as stated: an ephemeral (kind-25000)
event whose id equals the id of a currently stored event is rejected with
`false` by the duplicate check, not accepted with `true`. -/
theorem c9_counterexample :
    isEphemeralKind ephClash.kind = true ∧
    (EventStore.add [plainNote] ephClash).1 = false := by
  decide

/-- Applies `c9_ephemeral_amended` to a concrete kind-25000 event and a
one-event store. -/
theorem c9_witness :
    (EventStore.add [plainNote] ephFresh).2 = [plainNote] ∧
    (EventStore.add [plainNote] ephFresh).1 = true ∧
    ephFresh ∉ EventStore.query (EventStore.add [plainNote] ephFresh).2 emptyFilter := by
  have h := c9_ephemeral_amended [plainNote] ephFresh emptyFilter (by decide)
  exact ⟨h.1, h.2.1 (by decide), h.2.2 (by decide)⟩

/-- C10: duplicate-id rejection applies only against currently stored
events.  An ephemeral event whose id is fresh is accepted twice in a row
(`true` both times, the store never changing), unlike a regular event, which
is stored on the first admit and rejected as a duplicate on the second; an
ephemeral event whose id is already that of a stored event is rejected with
`false` before the ephemeral rule is reached. -/
theorem c10_duplicate_rejection_scope (st : List NostrEvent) (e : NostrEvent)
    (hk : isEphemeralKind e.kind = true) :
    (st.any (fun x => x.id == e.id) = false →
      EventStore.add st e = (true, st) ∧
      EventStore.add (EventStore.add st e).2 e = (true, st)) ∧
    (st.any (fun x => x.id == e.id) = true → EventStore.add st e = (false, st)) ∧
    (∀ g : NostrEvent, isReplaceableKind g.kind = false →
      isParamReplaceableKind g.kind = false → isEphemeralKind g.kind = false →
      st.any (fun x => x.id == g.id) = false →
      EventStore.add st g = (true, st ++ [g]) ∧
      (EventStore.add (EventStore.add st g).2 g).1 = false) := by
  have hr : isReplaceableKind e.kind = false := ephemeral_not_replaceable hk
  have hp : isParamReplaceableKind e.kind = false := ephemeral_not_param hk
  refine ⟨?_, ?_, ?_⟩
  · intro hd
    have h1 : EventStore.add st e = (true, st) := by
      simp [EventStore.add, hd, hr, hp, hk]
    refine ⟨h1, ?_⟩
    rw [h1]
    exact h1
  · intro hd
    simp [EventStore.add, hd]
  · intro g hgr hgp hge hd
    have h1 : EventStore.add st g = (true, st ++ [g]) := by
      simp [EventStore.add, hd, hgr, hgp, hge]
    refine ⟨h1, ?_⟩
    rw [h1]
    have hdup : (st ++ [g]).any (fun x => x.id == g.id) = true := by
      simp
    simp [EventStore.add, hdup]

/-- Applies `c10_duplicate_rejection_scope` to a concrete store: the fresh
ephemeral event is accepted twice, the id-clashing one is rejected, and the
regular `plainNote` shows the `(true, false)` pattern. -/
theorem c10_witness :
    EventStore.add [plainNote] ephFresh = (true, [plainNote]) ∧
    EventStore.add (EventStore.add [plainNote] ephFresh).2 ephFresh = (true, [plainNote]) ∧
    EventStore.add [plainNote] ephClash = (false, [plainNote]) ∧
    EventStore.add [] plainNote = (true, [plainNote]) ∧
    (EventStore.add (EventStore.add [] plainNote).2 plainNote).1 = false := by
  have h1 := c10_duplicate_rejection_scope [plainNote] ephFresh (by decide)
  have h2 := c10_duplicate_rejection_scope [plainNote] ephClash (by decide)
  have h3 := c10_duplicate_rejection_scope [] ephFresh (by decide)
  refine ⟨(h1.1 (by decide)).1, (h1.1 (by decide)).2, h2.2.1 (by decide), ?_, ?_⟩
  · exact ((h3.2.2 plainNote (by decide) (by decide) (by decide) (by decide)).1)
  · exact ((h3.2.2 plainNote (by decide) (by decide) (by decide) (by decide)).2)

/-- An absent field passes. -/
theorem optPass_true {A : Type} (p : A → Bool) : optPass none p = true := rfl

/-- The `length > 0`-guarded list test, as a proposition. -/
theorem listPass_iff {A : Type} (l : List A) (p : A → Bool) :
    (l.isEmpty || l.any p) = true ↔ (l ≠ [] → ∃ x ∈ l, p x = true) := by
  rcases eq_or_ne l [] with rfl | hne
  · simp
  · simp [hne, List.any_eq_true]

/-- The guarded any-of-list field test, as a proposition. -/
theorem optListAny_iff {A : Type} (o : Option (List A)) (p : A → Bool) :
    optPass o (fun l => l.isEmpty || l.any p) = true ↔
      ∀ l, o = some l → l ≠ [] → ∃ x ∈ l, p x = true := by
  cases o with
  | none => simp [optPass]
  | some l =>
    simp only [optPass, listPass_iff, Option.some.injEq]
    constructor
    · rintro h lp rfl
      exact h
    · intro h
      exact h l rfl

/-- The guarded membership field test, as a proposition. -/
theorem optListContains_iff (o : Option (List Nat)) (x : Nat) :
    optPass o (fun l => l.isEmpty || l.contains x) = true ↔
      ∀ l, o = some l → l ≠ [] → x ∈ l := by
  cases o with
  | none => simp [optPass]
  | some l =>
    rcases eq_or_ne l [] with rfl | hne
    · simp [optPass]
    · simp [optPass, hne]

/-- A decidable bound on an optional field, as a proposition. -/
theorem optDecide_iff (o : Option Int) (p : Int → Prop) [DecidablePred p] :
    optPass o (fun x => decide (p x)) = true ↔ ∀ x, o = some x → p x := by
  cases o <;> simp [optPass]

/-- One tag-filter conjunct of `matchFilter`, as a proposition. -/
theorem tagPass_iff (e : NostrEvent) (tf : String × List String) :
    (tf.2.isEmpty || tf.2.any (fun v =>
      ((e.tags.filter (fun t => t.get? 0 == some tf.1)).map
        (fun t => t.get? 1)).contains (some v))) = true ↔
    (tf.2 ≠ [] → ∃ v ∈ tf.2, ∃ t ∈ e.tags,
      t.get? 0 = some tf.1 ∧ t.get? 1 = some v) := by
  rw [listPass_iff]
  constructor
  · intro h hne
    obtain ⟨v, hv, hc⟩ := h hne
    refine ⟨v, hv, ?_⟩
    have hm : some v ∈ (e.tags.filter (fun t => t.get? 0 == some tf.1)).map
        (fun t => t.get? 1) := by simpa using hc
    rw [List.mem_map] at hm
    obtain ⟨t, ht1, ht2⟩ := hm
    rw [List.mem_filter] at ht1
    exact ⟨t, ht1.1, by simpa using ht1.2, ht2⟩
  · intro h hne
    obtain ⟨v, hv, t, ht1, ht2, ht3⟩ := h hne
    refine ⟨v, hv, ?_⟩
    have hm : some v ∈ (e.tags.filter (fun t => t.get? 0 == some tf.1)).map
        (fun t => t.get? 1) :=
      List.mem_map.mpr ⟨t, List.mem_filter.mpr ⟨ht1, by simpa using ht2⟩, ht3⟩
    simpa using hm

/-- C5 (amended): `matchFilter` is pure and total by construction, and
equals the conjunction of each present field's predicate with the one
correction that a present-but-empty list field constrains nothing;
`matchFilters` is the OR of `matchFilter` over the list and is false for the
empty list. -/
theorem c5_filter_semantics (e : NostrEvent) (f : NostrFilter) (fs : List NostrFilter) :
    (matchFilter e f = true ↔ matchFilterAmended e f) ∧
    matchFilters e [] = false ∧
    (matchFilters e fs = true ↔ ∃ g ∈ fs, matchFilter e g = true) := by
  refine ⟨?_, by simp [matchFilters], by simp [matchFilters]⟩
  unfold matchFilter matchFilterAmended
  simp only [Bool.and_eq_true, List.all_eq_true]
  rw [optListAny_iff f.ids, optListAny_iff f.authors, optListContains_iff f.kinds,
    optDecide_iff f.since, optDecide_iff f.untilTs]
  constructor
  · rintro ⟨⟨⟨⟨⟨hi, ha⟩, hk⟩, hs⟩, hu⟩, ht⟩
    exact ⟨hi, ha, hk, hs, hu, fun tf htf => (tagPass_iff e tf).mp (ht tf htf)⟩
  · rintro ⟨hi, ha, hk, hs, hu, ht⟩
    exact ⟨⟨⟨⟨⟨hi, ha⟩, hk⟩, hs⟩, hu⟩, fun tf htf => (tagPass_iff e tf).mpr (ht tf htf)⟩

/-- C5, counterexample to the claim as stated: the filter `{ids: []}` has
its `ids` field present, no listed id is a prefix of the event's id
(vacuously — the list is empty), yet `matchFilter` accepts the event. -/
theorem c5_counterexample :
    matchFilter plainNote emptyIdsFilter = true ∧
    ¬ matchFilterClaimed plainNote emptyIdsFilter := by
  constructor
  · decide
  · intro h
    obtain ⟨i, hi, -⟩ := h.1 [] rfl
    exact absurd hi (List.not_mem_nil i)

/-- Applies `c5_filter_semantics` at concrete inputs: `plainNote` fails the
`{"#p": ["x"]}` filter via the semantics, and the `matchFilters` clauses at
the empty and one-element filter lists. -/
theorem c5_witness :
    matchFilter plainNote tagLimitFilter = false ∧
    matchFilters plainNote [] = false ∧
    (matchFilters plainNote [emptyFilter] = true ↔
      ∃ g ∈ [emptyFilter], matchFilter plainNote g = true) :=
  ⟨by
    have h := (c5_filter_semantics plainNote tagLimitFilter []).1
    rw [Bool.eq_false_iff]
    intro hc
    obtain ⟨-, -, -, -, -, ht⟩ := h.mp hc
    obtain ⟨v, hv, t, htg, -, -⟩ := ht ("p", ["x"]) (by decide) (by decide)
    simp [plainNote] at htg,
   (c5_filter_semantics plainNote emptyFilter []).2.1,
   (c5_filter_semantics plainNote emptyFilter [emptyFilter]).2.2⟩

/-- Inserting into a descending-sorted list keeps it sorted. -/
theorem pairwise_insertDesc (e : NostrEvent) (l : List NostrEvent)
    (h : l.Pairwise createdGe) : (EventStore.insertDesc e l).Pairwise createdGe := by
  induction l with
  | nil => simp [EventStore.insertDesc]
  | cons x xs ih =>
    rw [EventStore.insertDesc]
    rw [List.pairwise_cons] at h
    split
    · rename_i hlt
      rw [List.pairwise_cons]
      refine ⟨?_, ih h.2⟩
      intro y hy
      rcases mem_insertDesc.mp hy with rfl | hy2
      · exact le_of_lt hlt
      · exact h.1 y hy2
    · rename_i hlt
      rw [List.pairwise_cons]
      refine ⟨?_, List.pairwise_cons.mpr h⟩
      intro y hy
      rcases List.mem_cons.mp hy with rfl | hy2
      · exact not_lt.mp hlt
      · exact le_trans (h.1 y hy2) (not_lt.mp hlt)

/-- Sorting gives `created_at` in descending (non-increasing) order. -/
theorem pairwise_sortDesc (l : List NostrEvent) :
    (EventStore.sortDesc l).Pairwise createdGe := by
  induction l with
  | nil => simp [EventStore.sortDesc]
  | cons x xs ih => exact pairwise_insertDesc x _ ih

/-- An insertion step grows the length by one. -/
theorem length_insertDesc (e : NostrEvent) (l : List NostrEvent) :
    (EventStore.insertDesc e l).length = l.length + 1 := by
  induction l with
  | nil => rfl
  | cons x xs ih =>
    rw [EventStore.insertDesc]
    split <;> simp [ih]

/-- Sorting preserves length. -/
theorem length_sortDesc (l : List NostrEvent) :
    (EventStore.sortDesc l).length = l.length := by
  induction l with
  | nil => rfl
  | cons x xs ih =>
    show (EventStore.insertDesc x (EventStore.sortDesc xs)).length = _
    rw [length_insertDesc, ih]
    rfl

/-- A tag-filter pass only removes rows. -/
theorem dbTagPass_sublist (tf : String × List String) (evs : List NostrEvent) :
    (dbTagPass tf evs).Sublist evs :=
  List.filter_sublist _

/-- The whole tag-filter fold only removes rows. -/
theorem foldTag_sublist (tfs : List (String × List String)) (evs : List NostrEvent) :
    (tfs.foldl (fun e tf => dbTagPass tf e) evs).Sublist evs := by
  induction tfs generalizing evs with
  | nil => exact List.Sublist.refl _
  | cons tf rest ih => exact (ih (dbTagPass tf evs)).trans (dbTagPass_sublist tf evs)

/-- Inserting an element with key `t` puts it at the front of the `t`-tie
block: the `t`-filtered result gains it first. -/
theorem filter_insertDesc_eq (t : Int) (e : NostrEvent) (l : List NostrEvent)
    (he : e.created_at = t) :
    (EventStore.insertDesc e l).filter (fun x => x.created_at == t) =
      e :: l.filter (fun x => x.created_at == t) := by
  induction l with
  | nil => simp [EventStore.insertDesc, he]
  | cons x xs ih =>
    rw [EventStore.insertDesc]
    split
    · rename_i hlt
      have hx : (x.created_at == t) = false := by
        rw [he] at hlt
        simp only [beq_eq_false_iff_ne, ne_eq]
        omega
      rw [List.filter_cons_of_neg (by simp at hx ⊢; exact hx), ih,
        List.filter_cons_of_neg (by simp at hx ⊢; exact hx)]
    · rw [List.filter_cons_of_pos (by simp [he])]

/-- Inserting an element with a different key leaves a `t`-tie block
untouched. -/
theorem filter_insertDesc_ne (t : Int) (e : NostrEvent) (l : List NostrEvent)
    (he : e.created_at ≠ t) :
    (EventStore.insertDesc e l).filter (fun x => x.created_at == t) =
      l.filter (fun x => x.created_at == t) := by
  induction l with
  | nil => simp [EventStore.insertDesc, he]
  | cons x xs ih =>
    rw [EventStore.insertDesc]
    split
    · rcases hx : (x.created_at == t) with - | -
      · rw [List.filter_cons_of_neg (by simp_all), ih,
          List.filter_cons_of_neg (by simp_all)]
      · rw [List.filter_cons_of_pos (by simp_all), ih,
          List.filter_cons_of_pos (by simp_all)]
    · rw [List.filter_cons_of_neg (by simp [he])]

/-- Stability of the descending sort: for every timestamp `t`, the elements
with `created_at = t` appear in the sorted output exactly in input order. -/
theorem filter_sortDesc (t : Int) (l : List NostrEvent) :
    (EventStore.sortDesc l).filter (fun x => x.created_at == t) =
      l.filter (fun x => x.created_at == t) := by
  induction l with
  | nil => rfl
  | cons x xs ih =>
    show (EventStore.insertDesc x (EventStore.sortDesc xs)).filter _ = _
    rcases eq_or_ne x.created_at t with he | he
    · rw [filter_insertDesc_eq t x _ he, ih, List.filter_cons_of_pos (by simp [he])]
    · rw [filter_insertDesc_ne t x _ he, ih, List.filter_cons_of_neg (by simp [he])]

/-- In a descending-sorted list, everything beyond a prefix is no newer than
anything in the prefix. -/
theorem take_drop_created (n : Nat) (l : List NostrEvent) (h : l.Pairwise createdGe)
    {x y : NostrEvent} (hx : x ∈ l.take n) (hy : y ∈ l.drop n) :
    y.created_at ≤ x.created_at := by
  rw [← List.take_append_drop n l] at h
  exact (List.pairwise_append.mp h).2.2 x hx y hy


/-- C7 (amended): every result of the in-memory query and of the SQLite-path
query is sorted by `created_at` in descending (non-increasing) order.  On
the in-memory path, ties are kept in insertion order (for every timestamp,
the result's events with that `created_at` appear exactly in store order — the
JS sort is stable over the insertion-ordered Map), a positive limit returns
exactly the first `limit` rows of the full result, and the result consists
of the newest matches: every match left out is no newer than every row
returned.  The SQLite path also honours a positive limit and always returns
at most 5000 rows; no tie order and no newest-matches property is claimed
for it (its tie order is whatever `ORDER BY created_at DESC` yields, and the
tag pass after `LIMIT` can drop newest matches — see the counterexample).
With no limit set, the in-memory path returns all matches uncapped. -/
theorem c7_sorted_and_limited (st : List NostrEvent) (f : NostrFilter) (l t : Int) :
    (EventStore.query st f).Pairwise createdGe ∧
    (queryDb st f).Pairwise createdGe ∧
    (queryDb st f).length ≤ 5000 ∧
    (f.limit = none →
      (EventStore.query st f).length = (st.filter (fun e => matchFilter e f)).length ∧
      (EventStore.query st f).filter (fun e => e.created_at == t) =
        (st.filter (fun e => matchFilter e f)).filter (fun e => e.created_at == t)) ∧
    (f.limit = some l → 0 < l →
      (EventStore.query st f).length ≤ l.toNat ∧
      (queryDb st f).length ≤ l.toNat ∧
      EventStore.query st f =
        (EventStore.query st { f with limit := none }).take l.toNat ∧
      (∀ x ∈ EventStore.query st f, ∀ y ∈ st, matchFilter y f = true →
        y ∉ EventStore.query st f → y.created_at ≤ x.created_at)) := by
  have hqm : ∀ g : NostrFilter, (EventStore.query st g).Pairwise createdGe := by
    intro g
    unfold EventStore.query
    rcases hl : g.limit with - | m
    · exact pairwise_sortDesc _
    · dsimp only
      split
      · exact List.Pairwise.sublist (List.take_sublist _ _) (pairwise_sortDesc _)
      · exact pairwise_sortDesc _
  have hdbSub : (queryDb st f).Sublist
      ((EventStore.sortDesc (st.filter (fun e => sqlCond e f))).take
        (match f.limit with
         | some m => if 0 < m then min m.toNat 5000 else 5000
         | none => 5000)) := by
    unfold queryDb
    exact foldTag_sublist _ _
  refine ⟨hqm f, ?_, ?_, ?_, ?_⟩
  · exact List.Pairwise.sublist (hdbSub.trans (List.take_sublist _ _)) (pairwise_sortDesc _)
  · have := hdbSub.length_le
    refine le_trans this (le_trans (List.length_take_le _ _) ?_)
    rcases hl : f.limit with - | m
    · simp
    · dsimp only
      split
      · exact min_le_right _ _
      · exact le_refl _
  · intro hl
    constructor
    · unfold EventStore.query
      rw [hl]
      exact length_sortDesc _
    · unfold EventStore.query
      rw [hl]
      exact filter_sortDesc t _
  · intro hl hpos
    have hq : EventStore.query st f =
        (EventStore.sortDesc (st.filter (fun e => matchFilter e f))).take l.toNat := by
      unfold EventStore.query
      rw [hl]
      dsimp only
      rw [if_pos hpos]
    refine ⟨?_, ?_, ?_, ?_⟩
    · rw [hq]
      exact List.length_take_le _ _
    · have := hdbSub.length_le
      rw [hl] at this
      dsimp only at this
      rw [if_pos hpos] at this
      exact le_trans this (le_trans (List.length_take_le _ _) (min_le_left _ _))
    · rw [hq]
      rfl
    · intro x hx y hyst hym hynot
      rw [hq] at hx hynot
      have hy2 : y ∈ EventStore.sortDesc (st.filter (fun e => matchFilter e f)) :=
        mem_sortDesc.mpr (List.mem_filter.mpr ⟨hyst, hym⟩)
      have hy3 : y ∈ (EventStore.sortDesc (st.filter (fun e => matchFilter e f))).drop l.toNat := by
        rw [← List.take_append_drop l.toNat
          (EventStore.sortDesc (st.filter (fun e => matchFilter e f)))] at hy2
        rcases List.mem_append.mp hy2 with h1 | h2
        · exact absurd h1 hynot
        · exact h2
      exact take_drop_created l.toNat _ (pairwise_sortDesc _) hx hy3

/-- Admitting regular events with pairwise fresh ids stores all of them in
order: every such store is reachable. -/
theorem addAll_regular (l : List NostrEvent) (st : List NostrEvent)
    (hk : ∀ e ∈ l, isReplaceableKind e.kind = false ∧
      isParamReplaceableKind e.kind = false ∧ isEphemeralKind e.kind = false)
    (hid : ((st ++ l).map (fun e => e.id)).Nodup) :
    addAll st l = st ++ l := by
  induction l generalizing st with
  | nil => simp [addAll]
  | cons e rest ih =>
    have he := hk e (List.mem_cons_self e rest)
    have hnotin : e.id ∉ st.map (fun x => x.id) := by
      rw [List.map_append] at hid
      have hdisj := (List.nodup_append.mp hid).2.2
      intro hmem
      exact hdisj hmem (by simp)
    have hfresh : st.any (fun x => x.id == e.id) = false := by
      rw [Bool.eq_false_iff]
      intro hc
      rw [List.any_eq_true] at hc
      obtain ⟨x, hx, hbe⟩ := hc
      exact hnotin (List.mem_map.mpr ⟨x, hx, beq_iff_eq.mp hbe⟩)
    have h1 : EventStore.add st e = (true, st ++ [e]) := by
      simp [EventStore.add, hfresh, he.1, he.2.1, he.2.2]
    show addAll st (e :: rest) = _
    rw [addAll, List.foldl_cons, h1]
    have h2 : addAll (st ++ [e]) rest = (st ++ [e]) ++ rest := by
      refine ih (st ++ [e]) (fun x hx => hk x (List.mem_cons_of_mem e hx)) ?_
      rw [← List.append_cons]
      exact hid
    show addAll (st ++ [e]) rest = _
    rw [h2, ← List.append_cons]

/-- The bulk events have pairwise distinct ids. -/
theorem bulkEvents_ids_nodup (n : Nat) :
    ((bulkEvents n).map (fun e => e.id)).Nodup := by
  rw [bulkEvents, List.map_map]
  have hinj : Function.Injective ((fun e : NostrEvent => e.id) ∘ regularEventNum) := by
    intro i j h
    have h2 : List.replicate i 'a' = List.replicate j 'a' := by
      injection h
    have h3 := congrArg List.length h2
    simpa using h3
  exact (List.nodup_range n).map hinj

/-- A filter with no fields set matches every event. -/
theorem matchFilter_emptyFilter (e : NostrEvent) : matchFilter e emptyFilter = true := rfl

/-- C7, counterexamples to the claim as stated.  First, the missing cap: a
reachable store of 5001 regular events queried with no limit set returns all
5001 matches on the in-memory path, exceeding the claimed fixed maximum of
5000.  Second, the newest-matches conjunct on the SQLite path: with the
store `[evNewer, evTagged]` (reachable via `addDb`) and the filter
`{"#p": ["x"], limit: 1}`, `evTagged` matches the filter, yet the SQLite
path returns `[]` — the SQL `LIMIT` runs before the tag pass, so the
positive-limit result omits the newest match. -/
theorem c7_counterexample :
    emptyFilter.limit = none ∧
    (EventStore.query (addAll [] (bulkEvents 5001)) emptyFilter).length = 5001 ∧
    5000 < 5001 ∧
    tagLimitFilter.limit = some 1 ∧
    (addDb (addDb [] evNewer).2 evTagged).2 = [evNewer, evTagged] ∧
    matchFilter evTagged tagLimitFilter = true ∧
    queryDb [evNewer, evTagged] tagLimitFilter = [] := by
  refine ⟨rfl, ?_, by norm_num, by decide, by decide, by decide, by decide⟩
  have hall : addAll [] (bulkEvents 5001) = bulkEvents 5001 := by
    have h := addAll_regular (bulkEvents 5001) []
      (fun e he => by
        rw [bulkEvents] at he
        obtain ⟨i, -, rfl⟩ := List.mem_map.mp he
        exact ⟨rfl, rfl, rfl⟩)
      (by simpa using bulkEvents_ids_nodup 5001)
    simpa using h
  rw [hall]
  unfold EventStore.query
  rw [show emptyFilter.limit = none from rfl]
  dsimp only
  rw [length_sortDesc, List.filter_eq_self.mpr (fun e _ => matchFilter_emptyFilter e)]
  simp [bulkEvents]

/-- Applies `c7_sorted_and_limited` at a concrete two-event store: the
limit-1 bundle (length bounds, prefix-of-full-result equation, and the
newest-matches bound with `evTagged` excluded) and the no-limit bundle
(uncapped length and tie stability at timestamp 100). -/
theorem c7_witness :
    (EventStore.query [evTagged, evNewer] limit1Filter).length ≤ (1 : Int).toNat ∧
    (queryDb [evTagged, evNewer] limit1Filter).length ≤ (1 : Int).toNat ∧
    EventStore.query [evTagged, evNewer] limit1Filter =
      (EventStore.query [evTagged, evNewer]
        { limit1Filter with limit := none }).take (1 : Int).toNat ∧
    evTagged.created_at ≤ evNewer.created_at ∧
    (EventStore.query [evTagged, evNewer] emptyFilter).length =
      ([evTagged, evNewer].filter (fun e => matchFilter e emptyFilter)).length ∧
    (EventStore.query [evTagged, evNewer] emptyFilter).filter
        (fun e => e.created_at == 100) =
      ([evTagged, evNewer].filter (fun e => matchFilter e emptyFilter)).filter
        (fun e => e.created_at == 100) :=
  ⟨((c7_sorted_and_limited [evTagged, evNewer] limit1Filter 1 100).2.2.2.2
      rfl (by decide)).1,
   ((c7_sorted_and_limited [evTagged, evNewer] limit1Filter 1 100).2.2.2.2
      rfl (by decide)).2.1,
   ((c7_sorted_and_limited [evTagged, evNewer] limit1Filter 1 100).2.2.2.2
      rfl (by decide)).2.2.1,
   ((c7_sorted_and_limited [evTagged, evNewer] limit1Filter 1 100).2.2.2.2
      rfl (by decide)).2.2.2 evNewer (by decide) evTagged (by decide)
      (by decide) (by decide),
   ((c7_sorted_and_limited [evTagged, evNewer] emptyFilter 1 100).2.2.2.1 rfl).1,
   ((c7_sorted_and_limited [evTagged, evNewer] emptyFilter 1 100).2.2.2.1 rfl).2⟩
